import Mathlib

/-!
Shallow embedding of the DWG extraction pipeline (`DwgExtract.cs` of
`DwgExtractPlugin`, and the headless extractor).  Doubles are modelled by
rationals (and by reals where a square root is taken); CAD-database reads
(base names, geometric extents, dynamic-property maps, drawing units) are
carried as input data on the embedded entities.  String helpers
(`Trim`, case-insensitive comparison, whitespace tests) are implemented
structurally on the character list of a `String`.
-/

namespace DwgExtract

/-- Planar point with rational coordinates, modelling an AutoCAD `Point2d`. -/
structure Point2d where
  x : ℚ
  y : ℚ
deriving DecidableEq

/-- Named zone with its boundary polygon, modelling the `PlannerZone` class. -/
structure PlannerZone where
  name : String
  poly : List Point2d
deriving DecidableEq

/-- Ray-casting point-in-polygon test, translated from `PointInPolygon` in
`DwgExtract.cs`; the `1e-12` guard added to the denominator is kept exactly. -/
def pointInPolygon (pt : Point2d) (poly : List Point2d) : Bool :=
  let n := poly.length
  if n < 3 then false
  else
    (List.range n).foldl
      (fun inside i =>
        let a := poly.getD i ⟨0, 0⟩
        let b := poly.getD ((i + 1) % n) ⟨0, 0⟩
        if (decide (a.y > pt.y)) != (decide (b.y > pt.y)) then
          let t : ℚ := (pt.y - a.y) / (b.y - a.y + 1e-12)
          let xInt : ℚ := a.x + (b.x - a.x) * t
          if pt.x < xInt then !inside else inside
        else inside)
      false

/-- First zone whose polygon (at least 3 vertices) contains the point,
translated from `ZoneForPoint` in `DwgExtract.cs`. -/
def zoneForPoint (pt : Point2d) : List PlannerZone → String
  | [] => ""
  | z :: rest =>
    if z.poly.length < 3 then zoneForPoint pt rest
    else if pointInPolygon pt z.poly then z.name
    else zoneForPoint pt rest

/-- Model of `string.IsNullOrWhiteSpace` (the embedding has no nulls):
true on the empty string and on strings of whitespace only. -/
def isNullOrWhiteSpace (s : String) : Bool :=
  s.data.all fun c => c.isWhitespace

/-- Lower-cased character list of a string, the basis of the
case-insensitive comparisons below. -/
def lowerData (s : String) : List Char :=
  s.data.map Char.toLower

/-- Case-insensitive string equality, modelling `StringComparer.OrdinalIgnoreCase`. -/
def strEqCI (a b : String) : Bool :=
  lowerData a == lowerData b

/-- Case-insensitive string order, modelling `OrderBy`/`ThenBy` comparisons
with `StringComparer.OrdinalIgnoreCase`. -/
def strLeCI (a b : String) : Bool :=
  decide (lowerData a ≤ lowerData b)

/-- Model of `string.Trim`: drop whitespace from both ends. -/
def trimStr (s : String) : String :=
  ⟨((s.data.dropWhile fun c => c.isWhitespace).reverse.dropWhile
      fun c => c.isWhitespace).reverse⟩

/-- Model of `string.Join(sep, parts)`. -/
def joinSep (sep : String) : List String → String
  | [] => ""
  | [x] => x
  | x :: xs => x ++ sep ++ joinSep sep xs

/-- Stable comparison-based sort (the embedding of the framework sorts
`List.Sort` and LINQ `OrderBy`/`ThenBy`), with a boolean `le` predicate. -/
def sortByBool (le : α → α → Bool) (l : List α) : List α :=
  List.insertionSort (fun a b => le a b = true) l

/-- The rational comparator used to model `List<double>.Sort()`. -/
def qLe (a b : ℚ) : Bool := decide (a ≤ b)

/-- Dynamic-property value as stored in a config bucket: the value string
together with the result of `double.TryParse` on it, carried as data since
parsing arbitrary strings happens in .NET. -/
structure CfgVal where
  text : String
  parsed : Option ℚ
deriving DecidableEq

/-- Result of `double.TryParse` on a bucket value. -/
def CfgVal.tryParse (v : CfgVal) : Option ℚ := v.parsed

/-- Data of a model-space `BlockReference` that `VISJSONNET` reads.  The
CAD-derived quantities (resolved base name, geometric extents, sizes and
distance parameters already scaled to feet, collected dynamic-property map)
are carried as fields because they come from the drawing database. -/
structure BlockRefEnt where
  name : String := ""
  baseName : String := ""
  layer : String := ""
  position : Point2d := ⟨0, 0⟩
  ext : Option (Point2d × Point2d) := none
  isDynamic : Bool := false
  lenFt : ℚ := 0
  widFt : ℚ := 0
  d1Ft : ℚ := 0
  d2Ft : ℚ := 0
  d3Ft : ℚ := 0
  d4Ft : ℚ := 0
  dynConfig : List (String × CfgVal) := []
deriving DecidableEq

/-- Zone resolution for a block reference, translated from
`ResolveZoneForBlockRef` in `DwgExtract.cs`: the insertion point is tried
first; if it yields no (non-blank) zone, the centre of the geometric
extents is tried. -/
def resolveZoneForBlockRef (br : BlockRefEnt) (zones : List PlannerZone) : String :=
  if zones.isEmpty then ""
  else
    let z := zoneForPoint br.position zones
    if !isNullOrWhiteSpace z then z
    else
      match br.ext with
      | none => ""
      | some (mn, mx) =>
        let c : Point2d := ⟨(mn.x + mx.x) * 0.5, (mn.y + mx.y) * 0.5⟩
        let z2 := zoneForPoint c zones
        if !isNullOrWhiteSpace z2 then z2 else ""

/-- Entity kinds distinguished by the headless extractor's
`ResolveZoneForEntity`, each with the geometry the code reads; the
geometric extents are carried as data. -/
inductive HeadlessEnt where
  | line (startPt endPt : Point2d) (ext : Option (Point2d × Point2d))
  | circle (center : Point2d) (ext : Option (Point2d × Point2d))
  | arc (center : Point2d) (ext : Option (Point2d × Point2d))
  | other (ext : Option (Point2d × Point2d))
deriving DecidableEq

/-- Zone resolution in the headless extractor, translated from
`ResolveZoneForEntity`: one representative point per entity kind (line
midpoint, circle/arc centre, otherwise the extents centre), tested once
against the zone list. -/
def resolveZoneForEntity (ent : HeadlessEnt) (zones : List PlannerZone) : String :=
  if zones.isEmpty then ""
  else
    let pt? : Option Point2d :=
      match ent with
      | .line s e _ => some ⟨(s.x + e.x) * 0.5, (s.y + e.y) * 0.5⟩
      | .circle c _ => some c
      | .arc c _ => some c
      | .other ext =>
        match ext with
        | none => none
        | some (mn, mx) => some ⟨(mn.x + mx.x) * 0.5, (mn.y + mx.y) * 0.5⟩
    match pt? with
    | none => ""
    | some pt => zoneForPoint pt zones

/-- The `Median` method of `DwgExtract.cs` as a state-passing function: the
C# method sorts its `List<double>` argument in place, so the result is the
pair of the returned value and the list's final state. -/
def medianSt (xs : List ℚ) : ℚ × List ℚ :=
  if xs.length = 0 then (0, xs)
  else
    let s := sortByBool qLe xs
    let n := s.length
    if n % 2 = 1 then (s.getD (n / 2) 0, s)
    else (0.5 * (s.getD (n / 2 - 1) 0 + s.getD (n / 2) 0), s)

/-- Value returned by `Median`. -/
def median (xs : List ℚ) : ℚ := (medianSt xs).1

/-- Drawing-unit values switched on by `GetScaleToFeet`; `unrecognized`
stands for any member of the `UnitsValue` enumeration that the switch does
not handle. -/
inductive UnitsValue where
  | undefined
  | inches
  | feet
  | miles
  | millimeters
  | centimeters
  | meters
  | kilometers
  | yards
  | unrecognized
deriving DecidableEq

/-- Scale factor from one drawing unit to feet, translated from
`GetScaleToFeet` in `DwgExtract.cs`. -/
def getScaleToFeet (u : UnitsValue) : ℚ :=
  match u with
  | .feet => 1.0
  | .inches => 1.0 / 12.0
  | .millimeters => 0.003280839895013123
  | .centimeters => 0.03280839895013123
  | .meters => 3.280839895013123
  | .kilometers => 3280.839895013123
  | .yards => 3.0
  | .miles => 5280.0
  | .undefined => 1.0
  | .unrecognized => 1.0

/-- Recover a rectangle's length and width from its perimeter and area,
translated from `SolveRectDimsFromPerimeterArea` (headless extractor);
real arithmetic models the double computation including `Math.Sqrt`. -/
noncomputable def solveRectDimsFromPerimeterArea (P A : ℝ) : ℝ × ℝ :=
  if P ≤ 0 ∨ A ≤ 0 then (0, 0)
  else
    let S := P / 2
    let D := S * S - 4 * A
    if D < -(1e-9 : ℝ) then (0, 0)
    else
      let D2 := if D < 0 then 0 else D
      let root := Real.sqrt D2
      let a := 0.5 * (S + root)
      let b := 0.5 * (S - root)
      if a ≤ 0 ∨ b ≤ 0 then (0, 0)
      else if a ≥ b then (a, b) else (b, a)

/-- Decimal digit character, `'0' + d` for a digit value `d`. -/
def digitChar (d : Nat) : Char :=
  Char.ofNat (48 + d % 10)

/-- Decimal digit list of a natural number, most significant first
(`fuel` bounds the recursion; any `fuel > n` is enough). -/
def natDigits (fuel n : Nat) : List Char :=
  match fuel with
  | 0 => []
  | fuel + 1 =>
    if n < 10 then [digitChar n]
    else natDigits fuel (n / 10) ++ [digitChar (n % 10)]

/-- Decimal numeral string of a natural number. -/
def natToStr (n : Nat) : String :=
  ⟨natDigits (n + 1) n⟩

/-- Decimal formatting backing the .NET custom patterns `"0.####"` and
`"0.##"`: round half away from zero at `k` decimal places and print as a
plain decimal without trailing zeros.  Implemented on the numerator and
denominator so that it stays within integer arithmetic. -/
def formatDec (k : Nat) (q : ℚ) : String :=
  let p : Nat := 10 ^ k
  let n : Nat := (2 * q.num.natAbs * p + q.den) / (2 * q.den)
  let ip := n / p
  let fp := n % p
  let ds : List Char :=
    if fp = 0 then natDigits (ip + 1) ip
    else
      let fs := natDigits (fp + 1) fp
      let fs := List.replicate (k - fs.length) '0' ++ fs
      natDigits (ip + 1) ip ++
        '.' :: (fs.reverse.dropWhile fun c => decide (c = '0')).reverse
  ⟨if q < 0 then '-' :: ds else ds⟩

/-- Case-insensitive lookup in an association list, modelling
`Dictionary(StringComparer.OrdinalIgnoreCase).TryGetValue`. -/
def lookupCI (m : List (String × α)) (k : String) : Option α :=
  (m.find? fun p => strEqCI p.1 k).map Prod.snd

/-- Case-insensitive store into an association list (overwrite the first
case-insensitive match, else append), modelling assignment into a
`Dictionary(StringComparer.OrdinalIgnoreCase)`. -/
def storeCI : List (String × α) → String → α → List (String × α)
  | [], k, v => [(k, v)]
  | p :: ps, k, v => if strEqCI p.1 k then (p.1, v) :: ps else p :: storeCI ps k v

/-- Counting step of the LINQ `GroupBy(x => x.Trim(), OrdinalIgnoreCase)`
pipeline: bump the case-insensitive group of `t`, keeping the first
occurrence as the group key, or open a new group. -/
def bumpGroup (t : String) : List (String × Nat) → List (String × Nat)
  | [] => [(t, 1)]
  | g :: gs => if strEqCI g.1 t then (g.1, g.2 + 1) :: gs else g :: bumpGroup t gs

/-- Non-whitespace values of a bucket grouped case-insensitively by their
trimmed text with occurrence counts, in first-occurrence order (the
`Where`/`GroupBy` part of the categorical branch of
`BuildConfigStringFromBuckets`). -/
def groupCI (vals : List CfgVal) : List (String × Nat) :=
  vals.foldl
    (fun acc v =>
      if !isNullOrWhiteSpace v.text then bumpGroup (trimStr v.text) acc else acc) []

/-- Comparator of the categorical branch: descending count, ties by
case-insensitive key order (`OrderByDescending(Count).ThenBy(Key, CI)`). -/
def groupLe (g h : String × Nat) : Bool :=
  decide (h.2 < g.2) || (decide (g.2 = h.2) && strLeCI g.1 h.1)

/-- Most frequent value of a bucket (`FirstOrDefault` of the sorted groups,
empty string when there is none), from `BuildConfigStringFromBuckets`. -/
def modeOf (vals : List CfgVal) : String :=
  ((sortByBool groupLe (groupCI vals)).headD ("", 0)).1

/-- Representative string of one value bucket, translated from the loop
body of `BuildConfigStringFromBuckets`: the median of the parsed numbers
(formatted `"0.####"`) when `nums.Count >= Math.Max(1, vals.Count / 2)`,
otherwise the most frequent value. -/
def reduceBucket (vals : List CfgVal) : String :=
  let nums := vals.filterMap CfgVal.tryParse
  if max 1 (vals.length / 2) ≤ nums.length then
    let ns := sortByBool qLe nums
    formatDec 4
      (if ns.length % 2 = 1 then ns.getD (ns.length / 2) 0
       else 0.5 * (ns.getD (ns.length / 2 - 1) 0 + ns.getD (ns.length / 2) 0))
  else modeOf vals

/-- Reduction rule as the specification words it, for comparison with
`reduceBucket`: numeric median exactly when at least half of the bucket's
values parse as numbers, otherwise the most frequent value. -/
def reduceBucketSpec (vals : List CfgVal) : String :=
  let nums := vals.filterMap CfgVal.tryParse
  if vals.length ≤ 2 * nums.length then
    let ns := sortByBool qLe nums
    formatDec 4
      (if ns.length % 2 = 1 then ns.getD (ns.length / 2) 0
       else 0.5 * (ns.getD (ns.length / 2 - 1) 0 + ns.getD (ns.length / 2) 0))
  else modeOf vals

/-- Append an optional element to an accumulator (`parts.Add`/`rows.Add`
guarded by a `continue` condition). -/
def appendOpt {β : Type} (rows : List β) : Option β → List β
  | none => rows
  | some r => rows ++ [r]

/-- Body of the per-key loop of `BuildConfigStringFromBuckets`: `none`
exactly on the `continue` conditions (key not found, empty bucket, blank
reduction), otherwise the `name=value` part that `parts.Add` appends. -/
def partOf (buckets : List (String × List CfgVal)) (k : String) : Option String :=
  match lookupCI buckets k with
  | none => none
  | some vals =>
    if vals.isEmpty then none
    else
      let chosen := reduceBucket vals
      if !isNullOrWhiteSpace chosen then some (k ++ "=" ++ chosen)
      else none

/-- Translated from `BuildConfigStringFromBuckets`: reduce every named
bucket and join the `name=value` parts, sorted case-insensitively by name,
with separator `"; "`. -/
def buildConfigStringFromBuckets (buckets : List (String × List CfgVal)) : String :=
  if buckets.isEmpty then ""
  else
    let keys := sortByBool strLeCI
      ((buckets.map Prod.fst).filter fun k => !isNullOrWhiteSpace k)
    joinSep "; " (keys.foldl (fun parts k => appendOpt parts (partOf buckets k)) [])

/-- Translated from `IsPlannerLayer`: the trimmed layer name equals
`PLANNER` case-insensitively. -/
def isPlannerLayer (layer : String) : Bool :=
  strEqCI (trimStr layer) "PLANNER"

/-- Per-block-type aggregate, modelling the `AllAgg` class: running totals
of the single pass plus the fields filled in at finalization. -/
structure AllAgg where
  blockName : String := ""
  totalCount : Int := 0
  dynamicCount : Int := 0
  categoryLike : String := ""
  lenFts : List ℚ := []
  widFts : List ℚ := []
  d1Fts : List ℚ := []
  d2Fts : List ℚ := []
  d3Fts : List ℚ := []
  d4Fts : List ℚ := []
  configBuckets : List (String × List CfgVal) := []
  zoneCounts : List (String × Int) := []
  lengthFt : ℚ := 0
  widthFt : ℚ := 0
  distance1Ft : ℚ := 0
  distance2Ft : ℚ := 0
  distance3Ft : ℚ := 0
  distance4Ft : ℚ := 0
  configString : String := ""
deriving DecidableEq

/-- Zone-count bump of the aggregation loop: `ZoneCounts[zoneName] = prev + 1`. -/
def bumpZone (zc : List (String × Int)) (z : String) : List (String × Int) :=
  storeCI zc z (((lookupCI zc z).getD 0) + 1)

/-- Config-bucket filling of the aggregation loop: trim the key and value,
get-or-create the bucket, append the value when it is not whitespace. -/
def addConfigBuckets (bks : List (String × List CfgVal)) (cfg : List (String × CfgVal)) :
    List (String × List CfgVal) :=
  cfg.foldl
    (fun bks kv =>
      if isNullOrWhiteSpace kv.1 then bks
      else
        let k := trimStr kv.1
        let v : CfgVal := ⟨trimStr kv.2.text, kv.2.parsed⟩
        let bucket := (lookupCI bks k).getD []
        storeCI bks k (bucket ++ if isNullOrWhiteSpace v.text then [] else [v]))
    bks

/-- Counting-and-samples part of the loop body: `TotalCount += 1`, the
dynamic count, the positive size and distance samples, and the config
buckets (`CollectDynamicConfig` returns the empty map for a non-dynamic
block reference). -/
def bumpAgg (e : BlockRefEnt) (a : AllAgg) : AllAgg :=
  { a with
    totalCount := a.totalCount + 1
    dynamicCount := a.dynamicCount + if e.isDynamic then 1 else 0
    lenFts := a.lenFts ++ if e.lenFt > 0 then [e.lenFt] else []
    widFts := a.widFts ++ if e.widFt > 0 then [e.widFt] else []
    d1Fts := a.d1Fts ++ if e.d1Ft > 0 then [e.d1Ft] else []
    d2Fts := a.d2Fts ++ if e.d2Ft > 0 then [e.d2Ft] else []
    d3Fts := a.d3Fts ++ if e.d3Ft > 0 then [e.d3Ft] else []
    d4Fts := a.d4Fts ++ if e.d4Ft > 0 then [e.d4Ft] else []
    configBuckets := addConfigBuckets a.configBuckets
      (if e.isDynamic then e.dynConfig else []) }

/-- Zone part of the loop body: bump the resolved zone's count and tag the
category as PLANNER, or fall back to the layer as category. -/
def applyZoneTag (zoneName layer : String) (a : AllAgg) : AllAgg :=
  if !isNullOrWhiteSpace zoneName then
    { a with zoneCounts := bumpZone a.zoneCounts zoneName, categoryLike := "PLANNER" }
  else if isNullOrWhiteSpace a.categoryLike then { a with categoryLike := layer }
  else a

/-- One iteration of the `VISJSONNET` model-space loop restricted to the
`allGrouped` aggregation (the visibility aggregation feeds a separate
output file), translated from `VisJsonNetCommand` in `DwgExtract.cs`. -/
def updateAllAgg (zones : List PlannerZone) (m : List (String × AllAgg))
    (e : BlockRefEnt) : List (String × AllAgg) :=
  if isPlannerLayer e.layer then m
  else
    let baseName := if isNullOrWhiteSpace e.baseName then e.name else e.baseName
    let a := (lookupCI m baseName).getD
      { blockName := baseName, totalCount := 0, dynamicCount := 0, categoryLike := "" }
    storeCI m baseName
      (applyZoneTag (resolveZoneForBlockRef e zones) e.layer (bumpAgg e a))

/-- The whole single pass of `VISJSONNET` over model space, for the
`allGrouped` dictionary. -/
def aggregateAll (zones : List PlannerZone) (ents : List BlockRefEnt) :
    List (String × AllAgg) :=
  ents.foldl (updateAllAgg zones) []

/-- Finalization step after the pass: medians of the collected samples and
the representative config string. -/
def finalizeAgg (a : AllAgg) : AllAgg :=
  { a with
    lengthFt := median a.lenFts
    widthFt := median a.widFts
    distance1Ft := median a.d1Fts
    distance2Ft := median a.d2Fts
    distance3Ft := median a.d3Fts
    distance4Ft := median a.d4Fts
    configString := buildConfigStringFromBuckets a.configBuckets }

/-- Translated from `PrettyProductName`. -/
def prettyProductName (categoryLike : String) : String :=
  let s := trimStr categoryLike
  if s.length = 0 then ""
  else if strEqCI s "PLANNER" then "Loose Furniture"
  else s

/-- Row of the sheet-like output, modelling the `SheetRow` class. -/
structure SheetRow where
  product : String := ""
  boqName : String := ""
  zone : String := ""
  config : String := ""
  qtyValue : Int := 0
  lengthFt : ℚ := 0
  widthFt : ℚ := 0
  params : String := ""
  preview : String := ""
deriving DecidableEq

/-- Translated from `BuildParamsString`: positive distances as `d1=..`
parts formatted `"0.##"`, joined with `", "`. -/
def buildParamsString (it : AllAgg) : String :=
  let parts :=
    (if it.distance1Ft > 0 then ["d1=" ++ formatDec 2 it.distance1Ft] else []) ++
    (if it.distance2Ft > 0 then ["d2=" ++ formatDec 2 it.distance2Ft] else []) ++
    (if it.distance3Ft > 0 then ["d3=" ++ formatDec 2 it.distance3Ft] else []) ++
    (if it.distance4Ft > 0 then ["d4=" ++ formatDec 2 it.distance4Ft] else [])
  if parts.isEmpty then "" else joinSep ", " parts

/-- Zone row attempt of the `foreach (var kv in it.ZoneCounts)` body in
`BuildSheetLikeRows`: `none` exactly on the `continue` condition (blank
zone or non-positive count), otherwise the row that `rows.Add` appends. -/
def zoneRowOf (it : AllAgg) (kv : String × Int) : Option SheetRow :=
  if isNullOrWhiteSpace kv.1 || decide (kv.2 ≤ 0) then none
  else some
    { product := prettyProductName it.categoryLike
      boqName := it.blockName
      zone := kv.1
      config := it.configString
      qtyValue := kv.2
      lengthFt := it.lengthFt
      widthFt := it.widthFt
      params := buildParamsString it
      preview := "" }

/-- The single `Unmarked Area` row that `BuildSheetLikeRows` emits for an
aggregate without zone counts. -/
def sentinelRowOf (it : AllAgg) : SheetRow :=
  { product := prettyProductName it.categoryLike
    boqName := it.blockName
    zone := "Unmarked Area"
    config := it.configString
    qtyValue := it.totalCount
    lengthFt := it.lengthFt
    widthFt := it.widthFt
    params := buildParamsString it
    preview := "" }

/-- Rows contributed by one aggregate, translated from the body of the
`foreach` in `BuildSheetLikeRows`: one row per (non-blank, positive)
zone count when any zone was observed, otherwise a single
`Unmarked Area` row carrying the total count. -/
def rowsOfAgg (it : AllAgg) : List SheetRow :=
  if !it.zoneCounts.isEmpty then
    it.zoneCounts.foldl (fun rows kv => appendOpt rows (zoneRowOf it kv)) []
  else [sentinelRowOf it]

/-- Final `OrderBy(Product).ThenBy(BoqName).ThenBy(Zone)` comparator of
`BuildSheetLikeRows`, all case-insensitive. -/
def sheetRowLe (r s : SheetRow) : Bool :=
  (!strEqCI r.product s.product && strLeCI r.product s.product) ||
  (strEqCI r.product s.product &&
    ((!strEqCI r.boqName s.boqName && strLeCI r.boqName s.boqName) ||
     (strEqCI r.boqName s.boqName && strLeCI r.zone s.zone)))

/-- Translated from `BuildSheetLikeRows`: collect every aggregate's rows,
then sort them by product, block name and zone. -/
def buildSheetLikeRows (items : List AllAgg) : List SheetRow :=
  sortByBool sheetRowLe (items.foldl (fun rows it => rows ++ rowsOfAgg it) [])

/-- The sheet-like output of the whole `VISJSONNET` run: aggregate the
model-space block references, finalize, and build the rows. -/
def visJsonSheetRows (zones : List PlannerZone) (ents : List BlockRefEnt) :
    List SheetRow :=
  buildSheetLikeRows ((aggregateAll zones ents).map fun p => finalizeAgg p.2)

/-- Concrete drawing for the worked example of the emitter: one PLANNER
zone polygon named Conference (a 10 by 10 square). -/
def confZones : List PlannerZone :=
  [⟨"Conference", [⟨0, 0⟩, ⟨10, 0⟩, ⟨10, 10⟩, ⟨0, 10⟩]⟩]

/-- Four placements of block type Table-Round on layer FURN: three inside
the Conference zone, the fourth outside every zone (and with no extents). -/
def tableEnts : List BlockRefEnt :=
  [{ name := "Table-Round", baseName := "Table-Round", layer := "FURN",
     position := ⟨1, 1⟩ },
   { name := "Table-Round", baseName := "Table-Round", layer := "FURN",
     position := ⟨2, 2⟩ },
   { name := "Table-Round", baseName := "Table-Round", layer := "FURN",
     position := ⟨3, 3⟩ },
   { name := "Table-Round", baseName := "Table-Round", layer := "FURN",
     position := ⟨100, 100⟩ }]

/-- The finalized aggregate of the worked example, used to instantiate the
per-group emitter properties. -/
def itExample : AllAgg :=
  { blockName := "Table-Round", totalCount := 4, dynamicCount := 0,
    categoryLike := "PLANNER", zoneCounts := [("Conference", 3)] }

/-! ## General lemmas about the embedded sorts -/

theorem sortByBool_perm (le : α → α → Bool) (l : List α) : (sortByBool le l).Perm l :=
  List.perm_insertionSort _ l

theorem sortByBool_pairwise (le : α → α → Bool)
    (total : ∀ a b, le a b = true ∨ le b a = true)
    (trans : ∀ a b c, le a b = true → le b c = true → le a c = true)
    (l : List α) : (sortByBool le l).Pairwise fun a b => le a b = true := by
  haveI : IsTotal α fun a b => le a b = true := ⟨total⟩
  haveI : IsTrans α fun a b => le a b = true := ⟨trans⟩
  exact List.sorted_insertionSort _ l

theorem sortQ_sorted (l : List ℚ) : (sortByBool qLe l).Pairwise (· ≤ ·) := by
  have h := sortByBool_pairwise qLe
    (fun a b => by simpa [qLe] using le_total a b)
    (fun a b c h1 h2 => by
      simp only [qLe, decide_eq_true_eq] at h1 h2 ⊢
      exact le_trans h1 h2) l
  exact h.imp fun h' => by simpa [qLe] using h'

theorem sortQ_eq_of_sorted {xs s : List ℚ} (hp : s.Perm xs)
    (hs : s.Pairwise (· ≤ ·)) : sortByBool qLe xs = s :=
  List.eq_of_perm_of_sorted ((sortByBool_perm qLe xs).trans hp.symm)
    (sortQ_sorted xs) hs

theorem medianSt_snd {xs : List ℚ} (h : xs ≠ []) :
    (medianSt xs).2 = sortByBool qLe xs := by
  have hlen : ¬ xs.length = 0 := by simpa [List.length_eq_zero] using h
  unfold medianSt
  rw [if_neg hlen]
  dsimp only
  split <;> rfl

theorem median_eq_of_sorted {xs s : List ℚ} (h : xs ≠ []) (hp : s.Perm xs)
    (hs : s.Pairwise (· ≤ ·)) :
    median xs =
      if s.length % 2 = 1 then s.getD (s.length / 2) 0
      else 0.5 * (s.getD (s.length / 2 - 1) 0 + s.getD (s.length / 2) 0) := by
  have hlen : ¬ xs.length = 0 := by simpa [List.length_eq_zero] using h
  have hsort : sortByBool qLe xs = s := sortQ_eq_of_sorted hp hs
  unfold median medianSt
  rw [if_neg hlen]
  dsimp only
  rw [hsort]
  split <;> rfl

/-! ## Lemmas about strings, formatting and the config reduction -/

theorem strEqCI_refl (a : String) : strEqCI a a = true := by
  simp [strEqCI]

theorem strLeCI_refl (a : String) : strLeCI a a = true := by
  simp [strLeCI]

theorem strLeCI_total (a b : String) : strLeCI a b = true ∨ strLeCI b a = true := by
  simp only [strLeCI, decide_eq_true_eq]
  exact le_total _ _

theorem strLeCI_trans {a b c : String} (h1 : strLeCI a b = true)
    (h2 : strLeCI b c = true) : strLeCI a c = true := by
  simp only [strLeCI, decide_eq_true_eq] at h1 h2 ⊢
  exact le_trans h1 h2

theorem digitChar_not_ws (d : Nat) : (digitChar d).isWhitespace = false := by
  unfold digitChar
  have h : d % 10 < 10 := Nat.mod_lt _ (by norm_num)
  set m := d % 10 with hm
  interval_cases m <;> decide

theorem natDigits_not_ws : ∀ (fuel n : Nat), ∀ c ∈ natDigits fuel n,
    c.isWhitespace = false := by
  intro fuel
  induction fuel with
  | zero => intro n c hc; simp [natDigits] at hc
  | succ m ih =>
    intro n c hc
    unfold natDigits at hc
    split at hc
    · simp only [List.mem_singleton] at hc
      subst hc
      exact digitChar_not_ws n
    · rcases List.mem_append.mp hc with h | h
      · exact ih _ _ h
      · simp only [List.mem_singleton] at h
        subst h
        exact digitChar_not_ws _

theorem natDigits_ne_nil (fuel n : Nat) : natDigits (fuel + 1) n ≠ [] := by
  unfold natDigits
  split <;> simp

theorem all_ws_false_of_mem {l : List Char} {c : Char} (hc : c ∈ l)
    (hw : c.isWhitespace = false) : (l.all fun c => c.isWhitespace) = false := by
  rcases hall : l.all fun c => c.isWhitespace with _ | _
  · rfl
  · have := List.all_eq_true.mp hall c hc
    rw [hw] at this
    cases this

/-- The decimal formatter never produces a blank string. -/
theorem formatDec_not_ws (k : Nat) (q : ℚ) :
    isNullOrWhiteSpace (formatDec k q) = false := by
  unfold formatDec isNullOrWhiteSpace
  dsimp only
  split
  · exact all_ws_false_of_mem (List.mem_cons_self _ _) (by decide)
  · split
    · obtain ⟨c, cs, hcons⟩ :=
        List.exists_cons_of_ne_nil (natDigits_ne_nil _ _)
      rw [hcons]
      exact all_ws_false_of_mem (List.mem_cons_self _ _)
        (natDigits_not_ws _ _ c (hcons ▸ List.mem_cons_self _ _))
    · exact all_ws_false_of_mem
        (List.mem_append.mpr (Or.inr (List.mem_cons_self _ _))) (by decide)

/-- A key drawn from an association list's key column is always found by
the case-insensitive lookup, at a member of the list. -/
theorem lookupCI_mem_key {α : Type} {m : List (String × α)} {k : String}
    (hk : k ∈ m.map Prod.fst) : ∃ q ∈ m, lookupCI m k = some q.2 := by
  obtain ⟨kv, hkv, hfst⟩ := List.mem_map.mp hk
  cases hf : m.find? fun p => strEqCI p.1 k with
  | none =>
    exfalso
    have hall := List.find?_eq_none.mp hf kv hkv
    rw [hfst, strEqCI_refl] at hall
    exact hall rfl
  | some q =>
    refine ⟨q, List.mem_of_find?_eq_some hf, ?_⟩
    unfold lookupCI
    rw [hf]
    rfl

theorem filterMap_eq_map_of_some {α β : Type} {f : α → Option β} {g : α → β} :
    ∀ {l : List α}, (∀ x ∈ l, f x = some (g x)) → l.filterMap f = l.map g := by
  intro l
  induction l with
  | nil => intro; rfl
  | cons a rest ih =>
    intro h
    rw [List.filterMap_cons, h a (List.mem_cons_self a rest)]
    dsimp only
    rw [List.map_cons, ih fun x hx => h x (List.mem_cons_of_mem a hx)]

/-- Numeric branch of `reduceBucket`, expressed through any ascending
arrangement `s` of the parsed values. -/
theorem reduceBucket_numeric {vals : List CfgVal} {s : List ℚ}
    (hp : s.Perm (vals.filterMap CfgVal.tryParse)) (hs : s.Pairwise (· ≤ ·))
    (hth : max 1 (vals.length / 2) ≤ s.length) :
    reduceBucket vals = formatDec 4
      (if s.length % 2 = 1 then s.getD (s.length / 2) 0
       else 0.5 * (s.getD (s.length / 2 - 1) 0 + s.getD (s.length / 2) 0)) := by
  have hlen : s.length = (vals.filterMap CfgVal.tryParse).length := hp.length_eq
  unfold reduceBucket
  dsimp only
  rw [if_pos (by rw [← hlen]; exact hth)]
  rw [sortQ_eq_of_sorted hp hs]

/-- Categorical branch of `reduceBucket`. -/
theorem reduceBucket_mode {vals : List CfgVal} {s : List ℚ}
    (hp : s.Perm (vals.filterMap CfgVal.tryParse))
    (hlt : s.length < max 1 (vals.length / 2)) :
    reduceBucket vals = modeOf vals := by
  have hlen : s.length = (vals.filterMap CfgVal.tryParse).length := hp.length_eq
  unfold reduceBucket
  dsimp only
  rw [if_neg (by rw [← hlen]; omega)]

theorem groupLe_total (g h : String × Nat) :
    groupLe g h = true ∨ groupLe h g = true := by
  unfold groupLe
  rcases Nat.lt_trichotomy g.2 h.2 with hlt | heq | hgt
  · right
    simp [hlt]
  · rcases strLeCI_total g.1 h.1 with hle | hle
    · left
      simp [heq, hle]
    · right
      simp [heq.symm, hle]
  · left
    simp [hgt]

theorem groupLe_trans (a b c : String × Nat) (h1 : groupLe a b = true)
    (h2 : groupLe b c = true) : groupLe a c = true := by
  simp only [groupLe, Bool.or_eq_true, Bool.and_eq_true, decide_eq_true_eq]
    at h1 h2 ⊢
  rcases h1 with hlt1 | ⟨heq1, hle1⟩ <;> rcases h2 with hlt2 | ⟨heq2, hle2⟩
  · exact Or.inl (by omega)
  · exact Or.inl (by omega)
  · exact Or.inl (by omega)
  · exact Or.inr ⟨by omega, strLeCI_trans hle1 hle2⟩

/-- The mode of a bucket is a group key of maximal count, ties broken
towards the case-insensitively least key. -/
theorem modeOf_spec {vals : List CfgVal} (hg : groupCI vals ≠ []) :
    ∃ cnt, (modeOf vals, cnt) ∈ groupCI vals ∧
      ∀ g ∈ groupCI vals, g.2 ≤ cnt ∧
        (g.2 = cnt → strLeCI (modeOf vals) g.1 = true) := by
  have hperm := sortByBool_perm groupLe (groupCI vals)
  have hpw := sortByBool_pairwise groupLe groupLe_total groupLe_trans (groupCI vals)
  obtain ⟨h, t, hst⟩ : ∃ h t, sortByBool groupLe (groupCI vals) = h :: t := by
    cases hsort : sortByBool groupLe (groupCI vals) with
    | nil =>
      exfalso
      apply hg
      rw [hsort] at hperm
      exact (List.perm_nil.mp hperm.symm).symm ▸ rfl
    | cons a b => exact ⟨a, b, rfl⟩
  have hmode : modeOf vals = h.1 := by
    unfold modeOf
    rw [hst]
    rfl
  have hmem : h ∈ groupCI vals := hperm.mem_iff.mp (hst ▸ List.mem_cons_self h t)
  refine ⟨h.2, by rw [hmode]; exact hmem, ?_⟩
  intro g hgmem
  have hg' : g ∈ h :: t := by
    rw [← hst]
    exact hperm.mem_iff.mpr hgmem
  rcases List.mem_cons.mp hg' with rfl | hmemt
  · exact ⟨le_refl _, fun _ => hmode ▸ strLeCI_refl _⟩
  · have hle : groupLe h g = true := by
      rw [hst] at hpw
      exact (List.pairwise_cons.mp hpw).1 g hmemt
    simp only [groupLe, Bool.or_eq_true, Bool.and_eq_true, decide_eq_true_eq]
      at hle
    rcases hle with hlt | ⟨heq, hsle⟩
    · exact ⟨le_of_lt hlt, fun habs => absurd habs (by omega)⟩
    · exact ⟨le_of_eq heq.symm, fun _ => hmode ▸ hsle⟩

/-! ## Lemmas about the aggregation and row emission -/

theorem foldl_append_eq {β γ : Type} (f : γ → List β) :
    ∀ (l : List γ) (acc : List β),
      l.foldl (fun rows it => rows ++ f it) acc = acc ++ (l.map f).flatten
  | [], acc => by simp
  | a :: rest, acc => by
    rw [List.foldl_cons, foldl_append_eq f rest (acc ++ f a)]
    simp

theorem foldl_filterMap_eq {β γ : Type} (f : γ → Option β) :
    ∀ (l : List γ) (acc : List β),
      l.foldl (fun rows kv => appendOpt rows (f kv)) acc = acc ++ l.filterMap f
  | [], acc => by simp
  | a :: rest, acc => by
    rw [List.foldl_cons]
    cases hf : f a with
    | none =>
      rw [show appendOpt acc none = acc from rfl]
      rw [foldl_filterMap_eq f rest acc]
      simp [List.filterMap_cons, hf]
    | some r =>
      rw [show appendOpt acc (some r) = acc ++ [r] from rfl]
      rw [foldl_filterMap_eq f rest (acc ++ [r])]
      simp [List.filterMap_cons, hf]

theorem rowsOfAgg_zoned {it : AllAgg} (h : it.zoneCounts ≠ []) :
    rowsOfAgg it = it.zoneCounts.filterMap (zoneRowOf it) := by
  unfold rowsOfAgg
  rw [if_pos (by
    cases hz : it.zoneCounts with
    | nil => exact absurd hz h
    | cons a l => simp [hz])]
  rw [foldl_filterMap_eq (zoneRowOf it) it.zoneCounts []]
  simp

theorem rowsOfAgg_empty {it : AllAgg} (h : it.zoneCounts = []) :
    rowsOfAgg it = [sentinelRowOf it] := by
  unfold rowsOfAgg
  rw [h]
  rfl

/-- Anatomy of a row contributed by one aggregate: either a zone row for a
non-blank, positively counted (zone, count) pair, or the sentinel row of a
group without zone counts. -/
theorem mem_rowsOfAgg {it : AllAgg} {r : SheetRow} (hr : r ∈ rowsOfAgg it) :
    (∃ kv ∈ it.zoneCounts, r.zone = kv.1 ∧ r.qtyValue = kv.2 ∧
      isNullOrWhiteSpace kv.1 = false ∧ 0 < kv.2 ∧ r.boqName = it.blockName) ∨
    (it.zoneCounts = [] ∧ r = sentinelRowOf it) := by
  by_cases hz : it.zoneCounts = []
  · right
    refine ⟨hz, ?_⟩
    rw [rowsOfAgg_empty hz] at hr
    simpa using hr
  · left
    rw [rowsOfAgg_zoned hz] at hr
    obtain ⟨kv, hkv, hsome⟩ := List.mem_filterMap.mp hr
    refine ⟨kv, hkv, ?_⟩
    unfold zoneRowOf at hsome
    by_cases hc : (isNullOrWhiteSpace kv.1 || decide (kv.2 ≤ 0)) = true
    · rw [if_pos hc] at hsome
      cases hsome
    · rw [if_neg hc] at hsome
      injection hsome with hrow
      subst hrow
      simp only [Bool.or_eq_true, decide_eq_true_eq, not_or, Bool.not_eq_true,
        not_le] at hc
      exact ⟨rfl, rfl, hc.1, hc.2, rfl⟩

theorem mem_storeCI {α : Type} : ∀ {m : List (String × α)} {k : String} {v : α}
    {p : String × α}, p ∈ storeCI m k v → p.2 = v ∨ p ∈ m := by
  intro m
  induction m with
  | nil =>
    intro k v p hp
    simp only [storeCI, List.mem_singleton] at hp
    subst hp
    exact Or.inl rfl
  | cons q qs ih =>
    intro k v p hp
    unfold storeCI at hp
    split at hp
    · rcases List.mem_cons.mp hp with rfl | hmem
      · exact Or.inl rfl
      · exact Or.inr (List.mem_cons_of_mem q hmem)
    · rcases List.mem_cons.mp hp with rfl | hmem
      · exact Or.inr (List.mem_cons_self p qs)
      · rcases ih hmem with h2 | h2
        · exact Or.inl h2
        · exact Or.inr (List.mem_cons_of_mem q h2)

theorem lookupCI_mem {α : Type} {m : List (String × α)} {k : String} {v : α}
    (h : lookupCI m k = some v) : ∃ key, (key, v) ∈ m := by
  unfold lookupCI at h
  cases hf : m.find? fun p => strEqCI p.1 k with
  | none =>
    rw [hf] at h
    cases h
  | some p =>
    rw [hf] at h
    have hv : p.2 = v := by
      simpa using h
    have hm := List.mem_of_find?_eq_some hf
    exact ⟨p.1, by rw [← hv]; exact hm⟩

theorem bumpAgg_totalCount (e : BlockRefEnt) (a : AllAgg) :
    (bumpAgg e a).totalCount = a.totalCount + 1 := rfl

theorem applyZoneTag_totalCount (z l : String) (a : AllAgg) :
    (applyZoneTag z l a).totalCount = a.totalCount := by
  unfold applyZoneTag
  split
  · rfl
  · split <;> rfl

theorem updateAllAgg_totalCount_pos {zones : List PlannerZone}
    {m : List (String × AllAgg)} {e : BlockRefEnt}
    (hm : ∀ p ∈ m, 1 ≤ p.2.totalCount) :
    ∀ p ∈ updateAllAgg zones m e, 1 ≤ p.2.totalCount := by
  intro p hp
  unfold updateAllAgg at hp
  by_cases hpl : isPlannerLayer e.layer = true
  · rw [if_pos hpl] at hp
    exact hm p hp
  · rw [if_neg hpl] at hp
    dsimp only at hp
    rcases mem_storeCI hp with hpv | hpm
    · rw [hpv, applyZoneTag_totalCount, bumpAgg_totalCount]
      cases hlk : lookupCI m
        (if isNullOrWhiteSpace e.baseName = true then e.name else e.baseName) with
      | none => simp
      | some a0 =>
        obtain ⟨key, hkey⟩ := lookupCI_mem hlk
        have h1 : 1 ≤ a0.totalCount := hm (key, a0) hkey
        simp only [Option.getD_some]
        omega
    · exact hm p hpm

theorem aggregate_totalCount_pos_from (zones : List PlannerZone) :
    ∀ (ents : List BlockRefEnt) (m : List (String × AllAgg)),
      (∀ p ∈ m, 1 ≤ p.2.totalCount) →
      ∀ p ∈ ents.foldl (updateAllAgg zones) m, 1 ≤ p.2.totalCount
  | [], m, hm => by simpa using hm
  | e :: rest, m, hm => by
    rw [List.foldl_cons]
    exact aggregate_totalCount_pos_from zones rest _ (updateAllAgg_totalCount_pos hm)

/-- Every group of the single pass has seen at least one entity. -/
theorem aggregate_totalCount_pos (zones : List PlannerZone)
    (ents : List BlockRefEnt) :
    ∀ p ∈ aggregateAll zones ents, 1 ≤ p.2.totalCount :=
  aggregate_totalCount_pos_from zones ents [] (by simp)

/-- Zone resolution for the example placements inside the Conference zone. -/
theorem resolve_example (p : Point2d) (hz : zoneForPoint p confZones = "Conference") :
    resolveZoneForBlockRef
      { name := "Table-Round", baseName := "Table-Round", layer := "FURN",
        position := p } confZones = "Conference" := by
  have hws : isNullOrWhiteSpace "Conference" = false := by decide
  have hne : confZones.isEmpty = false := rfl
  simp [resolveZoneForBlockRef, hne, hz, hws]

/-- The single pass over the four example placements: one group with total
count 4 of which 3 were resolved to the Conference zone. -/
theorem aggregateAll_example_eval :
    aggregateAll confZones tableEnts =
      [("Table-Round",
        { blockName := "Table-Round", totalCount := 4, dynamicCount := 0,
          categoryLike := "PLANNER", zoneCounts := [("Conference", 3)] })] := by
  have hz1 : zoneForPoint ⟨1, 1⟩ confZones = "Conference" := by
    norm_num [confZones, zoneForPoint, pointInPolygon, List.range_succ]
  have hz2 : zoneForPoint ⟨2, 2⟩ confZones = "Conference" := by
    norm_num [confZones, zoneForPoint, pointInPolygon, List.range_succ]
  have hz3 : zoneForPoint ⟨3, 3⟩ confZones = "Conference" := by
    norm_num [confZones, zoneForPoint, pointInPolygon, List.range_succ]
  have h1 := resolve_example ⟨1, 1⟩ hz1
  have h2 := resolve_example ⟨2, 2⟩ hz2
  have h3 := resolve_example ⟨3, 3⟩ hz3
  have h4 : resolveZoneForBlockRef
      { name := "Table-Round", baseName := "Table-Round", layer := "FURN",
        position := ⟨100, 100⟩ } confZones = "" := by
    have hz : zoneForPoint ⟨100, 100⟩ confZones = "" := by
      norm_num [confZones, zoneForPoint, pointInPolygon, List.range_succ]
    have hne : confZones.isEmpty = false := rfl
    simp [resolveZoneForBlockRef, hne, hz, isNullOrWhiteSpace]
  simp only [aggregateAll, tableEnts, List.foldl_cons, List.foldl_nil,
    updateAllAgg, h1, h2, h3, h4]
  decide

/-- The sheet-like output of the example run is the single Conference row
with quantity 3; the out-of-zone fourth placement is not represented. -/
theorem visJson_example_eval :
    visJsonSheetRows confZones tableEnts =
      [{ product := "Loose Furniture", boqName := "Table-Round",
         zone := "Conference", config := "", qtyValue := 3 }] := by
  unfold visJsonSheetRows
  rw [aggregateAll_example_eval]
  decide

theorem strEqCI_comm (a b : String) : strEqCI a b = strEqCI b a := by
  unfold strEqCI
  by_cases h : lowerData a = lowerData b
  · simp [h]
  · rw [beq_eq_false_iff_ne.mpr h, beq_eq_false_iff_ne.mpr (Ne.symm h)]

theorem strEqCI_false_ne {a b : String} (h : strEqCI a b = false) : a ≠ b :=
  fun hab => by rw [hab, strEqCI_refl] at h; cases h

theorem boqName_of_mem_rowsOfAgg {it : AllAgg} {r : SheetRow}
    (hr : r ∈ rowsOfAgg it) : r.boqName = it.blockName := by
  rcases mem_rowsOfAgg hr with ⟨kv, _, _, _, _, _, hboq⟩ | ⟨_, hrow⟩
  · exact hboq
  · rw [hrow]
    rfl

theorem countP_rowsOfAgg_ne {it' it : AllAgg} (hne : it'.blockName ≠ it.blockName)
    (p : SheetRow → Bool) (hp : ∀ r, p r = true → r.boqName = it.blockName) :
    (rowsOfAgg it').countP p = 0 := by
  rw [List.countP_eq_zero]
  intro r hr hpr
  exact hne (by rw [← boqName_of_mem_rowsOfAgg hr]; exact hp r hpr)

theorem countP_flatten {β : Type} (p : β → Bool) : ∀ (L : List (List β)),
    L.flatten.countP p = (L.map fun l => l.countP p).sum
  | [] => rfl
  | l :: L => by
    rw [List.flatten_cons, List.countP_append, countP_flatten p L]
    simp

theorem countP_filterMap_zone_zero (it : AllAgg) (z : String) :
    ∀ (zc : List (String × Int)), (∀ kv ∈ zc, kv.1 ≠ z) →
      ((zc.filterMap (zoneRowOf it)).countP
        fun r => r.boqName == it.blockName && r.zone == z) = 0 := by
  intro zc hkv
  rw [List.countP_eq_zero]
  intro r hr
  obtain ⟨kv, hkvm, hsome⟩ := List.mem_filterMap.mp hr
  have hz : r.zone = kv.1 := by
    unfold zoneRowOf at hsome
    split at hsome
    · cases hsome
    · injection hsome with h
      subst h
      rfl
  simp only [Bool.and_eq_true, beq_iff_eq, not_and]
  intro _
  rw [hz]
  exact hkv kv hkvm

theorem countP_filterMap_zone_one (it : AllAgg) {z : String} {q : Int} :
    ∀ (zc : List (String × Int)),
      zc.Pairwise (fun p q => p.1 ≠ q.1) → (z, q) ∈ zc →
      isNullOrWhiteSpace z = false → 0 < q →
      ((zc.filterMap (zoneRowOf it)).countP
        fun r => r.boqName == it.blockName && r.zone == z) = 1
  | [], _, hmem, _, _ => by cases hmem
  | kv :: rest, hpw, hmem, hws, hq => by
    obtain ⟨hhd, htl⟩ := List.pairwise_cons.mp hpw
    rcases List.mem_cons.mp hmem with heq | hmem2
    · obtain rfl := heq.symm
      rw [List.filterMap_cons]
      rw [show zoneRowOf it (z, q) = some
          { product := prettyProductName it.categoryLike
            boqName := it.blockName
            zone := z
            config := it.configString
            qtyValue := q
            lengthFt := it.lengthFt
            widthFt := it.widthFt
            params := buildParamsString it
            preview := "" } from by
        unfold zoneRowOf
        rw [if_neg (by simp [hws]; omega)]]
      dsimp only
      rw [List.countP_cons]
      rw [countP_filterMap_zone_zero it z rest
        (fun kv' hkv' => Ne.symm (hhd kv' hkv'))]
      simp
    · have hkz : kv.1 ≠ z := by
        simpa using hhd (z, q) hmem2
      rw [List.filterMap_cons]
      cases hzr : zoneRowOf it kv with
      | none => exact countP_filterMap_zone_one it rest htl hmem2 hws hq
      | some row =>
        have hrz : row.zone = kv.1 := by
          unfold zoneRowOf at hzr
          split at hzr
          · cases hzr
          · injection hzr with h
            subst h
            rfl
        dsimp only
        rw [List.countP_cons]
        rw [show (row.zone == z) = false from by
          rw [hrz]
          exact beq_eq_false_iff_ne.mpr hkz]
        simp only [Bool.and_false, Bool.false_eq_true, if_false, add_zero]
        exact countP_filterMap_zone_one it rest htl hmem2 hws hq

theorem countP_sentinel_one {it : AllAgg} (hz : it.zoneCounts = []) :
    ((rowsOfAgg it).countP fun r => r.boqName == it.blockName) = 1 := by
  rw [rowsOfAgg_empty hz]
  simp [sentinelRowOf]

theorem sum_countP_unique (p : SheetRow → Bool) (it : AllAgg)
    (hp : ∀ r, p r = true → r.boqName = it.blockName)
    (hone : (rowsOfAgg it).countP p = 1) :
    ∀ (its : List AllAgg),
      its.Pairwise (fun a b => strEqCI a.blockName b.blockName = false) →
      it ∈ its →
      ((its.map fun it' => (rowsOfAgg it').countP p).sum) = 1
  | [], _, hmem => by cases hmem
  | a :: rest, hpw, hmem => by
    obtain ⟨ha, htl⟩ := List.pairwise_cons.mp hpw
    rw [List.map_cons, List.sum_cons]
    rcases List.mem_cons.mp hmem with rfl | hmem2
    · rw [hone]
      rw [List.sum_eq_zero (by
        intro x hx
        obtain ⟨b, hb, rfl⟩ := List.mem_map.mp hx
        exact countP_rowsOfAgg_ne (Ne.symm (strEqCI_false_ne (ha b hb))) p hp)]
      rfl
    · rw [countP_rowsOfAgg_ne (strEqCI_false_ne (ha it hmem2)) p hp]
      rw [sum_countP_unique p it hp hone rest htl hmem2]

/-! ## Claim theorems -/

/-- C5: the unit conversion is total: converting 1.0 of each handled
drawing unit yields the fixed published feet-per-unit constant (inches
give 1/12, meters give 3.280839895013123, yards give 3, miles give 5280,
and so on), while the undefined and every unrecognized unit value yield
exactly 1.0 instead of an error. -/
theorem getScaleToFeet_total :
    getScaleToFeet .feet = 1 ∧
    getScaleToFeet .inches = 1 / 12 ∧
    getScaleToFeet .millimeters = 0.003280839895013123 ∧
    getScaleToFeet .centimeters = 0.03280839895013123 ∧
    getScaleToFeet .meters = 3.280839895013123 ∧
    getScaleToFeet .kilometers = 3280.839895013123 ∧
    getScaleToFeet .yards = 3 ∧
    getScaleToFeet .miles = 5280 ∧
    getScaleToFeet .undefined = 1 ∧
    getScaleToFeet .unrecognized = 1 := by
  refine ⟨?_, ?_, ?_, ?_, ?_, ?_, ?_, ?_, ?_, ?_⟩ <;> norm_num [getScaleToFeet]

/-- C6: the median reduction returns 0 on the empty list, the central
element of the ascending arrangement for odd length, and the mean of the
two central elements for even length; concretely [1,2,3,4] reduces to 2.5,
[5] to 5 and [] to 0. -/
theorem median_central_characterization :
    (median [1, 2, 3, 4] = 2.5 ∧ median [5] = 5 ∧ median [] = 0) ∧
    ∀ (xs s : List ℚ), s.Perm xs → s.Pairwise (· ≤ ·) →
      (xs = [] → median xs = 0) ∧
      (s.length % 2 = 1 → median xs = s.getD (s.length / 2) 0) ∧
      (s.length % 2 = 0 → s ≠ [] →
        median xs = 0.5 * (s.getD (s.length / 2 - 1) 0 + s.getD (s.length / 2) 0)) := by
  constructor
  · refine ⟨?_, ?_, rfl⟩
    · have h := @median_eq_of_sorted [1, 2, 3, 4] [1, 2, 3, 4]
        (by decide) (List.Perm.refl _) (by decide)
      rw [h]
      norm_num
    · have h := @median_eq_of_sorted [5] [5]
        (by decide) (List.Perm.refl _) (by decide)
      rw [h]
      norm_num
  · intro xs s hp hs
    refine ⟨?_, ?_, ?_⟩
    · intro hxs
      subst hxs
      rfl
    · intro hodd
      have hsne : s ≠ [] := by
        intro h0
        rw [h0] at hodd
        simp at hodd
      have hne : xs ≠ [] := fun hxs => hsne (by simpa [hxs] using hp)
      rw [median_eq_of_sorted hne hp hs, if_pos hodd]
    · intro heven hsne
      have hne : xs ≠ [] := fun hxs => hsne (by simpa [hxs] using hp)
      rw [median_eq_of_sorted hne hp hs, if_neg (by omega)]

/-- Witness for C6 at the concrete input [2,1,4,3] with sorted
arrangement [1,2,3,4]. -/
theorem median_central_characterization_witness :
    ([1, 2, 3, 4] : List ℚ).Perm [2, 1, 4, 3] ∧
    ([1, 2, 3, 4] : List ℚ).Pairwise (· ≤ ·) ∧
    median [2, 1, 4, 3] = 2.5 := by
  have hperm : ([1, 2, 3, 4] : List ℚ).Perm [2, 1, 4, 3] := by decide
  have hpw : ([1, 2, 3, 4] : List ℚ).Pairwise (· ≤ ·) := by decide
  refine ⟨hperm, hpw, ?_⟩
  have h := (median_central_characterization.2 [2, 1, 4, 3] [1, 2, 3, 4]
    hperm hpw).2.2 (by decide) (by decide)
  rw [h]
  norm_num

/-- C7: the ray-casting test on the unit square polygon reports (0.5, 0.5)
inside and (1.5, 0.5) outside. -/
theorem pointInPolygon_unit_square :
    pointInPolygon ⟨0.5, 0.5⟩ [⟨0, 0⟩, ⟨1, 0⟩, ⟨1, 1⟩, ⟨0, 1⟩] = true ∧
    pointInPolygon ⟨1.5, 0.5⟩ [⟨0, 0⟩, ⟨1, 0⟩, ⟨1, 1⟩, ⟨0, 1⟩] = false := by
  constructor <;> norm_num [pointInPolygon, List.range_succ]

/-- C8: a polygon with fewer than 3 vertices matches no point (the test
returns false rather than failing), and the zone search ignores such
degenerate polygons entirely. -/
theorem degenerate_polygons_never_match (pt : Point2d) (poly : List Point2d)
    (zones : List PlannerZone) (hlt : poly.length < 3) :
    pointInPolygon pt poly = false ∧
    zoneForPoint pt zones =
      zoneForPoint pt (zones.filter fun z => decide (3 ≤ z.poly.length)) := by
  constructor
  · simp only [pointInPolygon]
    rw [if_pos hlt]
  · clear hlt
    induction zones with
    | nil => rfl
    | cons z rest ih =>
      by_cases h : z.poly.length < 3
      · have hd : decide (3 ≤ z.poly.length) = false := decide_eq_false (by omega)
        simp [zoneForPoint, h, hd, ih]
      · have hd : decide (3 ≤ z.poly.length) = true := decide_eq_true (by omega)
        simp [zoneForPoint, h, hd, ih]

/-- Witness for C8 at a concrete two-vertex polygon. -/
theorem degenerate_polygons_never_match_witness :
    ([⟨0, 0⟩, ⟨1, 1⟩] : List Point2d).length < 3 ∧
    pointInPolygon ⟨0, 0⟩ [⟨0, 0⟩, ⟨1, 1⟩] = false :=
  ⟨by decide, (degenerate_polygons_never_match ⟨0, 0⟩ [⟨0, 0⟩, ⟨1, 1⟩] []
    (by decide)).1⟩

/-- C10: the median computation sorts its list argument in place: after
the call the list is an ascending permutation of its previous contents
(the multiset of elements is unchanged), and the median of the new
contents equals the original median. -/
theorem median_sorts_in_place (xs : List ℚ) (h : xs ≠ []) :
    (medianSt xs).2.Perm xs ∧
    (medianSt xs).2.Pairwise (· ≤ ·) ∧
    median ((medianSt xs).2) = median xs := by
  have hsnd := medianSt_snd h
  have hperm : (sortByBool qLe xs).Perm xs := sortByBool_perm qLe xs
  have hsorted := sortQ_sorted xs
  refine ⟨hsnd ▸ hperm, hsnd ▸ hsorted, ?_⟩
  rw [hsnd]
  have hne' : sortByBool qLe xs ≠ [] :=
    fun h0 => h (List.perm_nil.mp (h0 ▸ hperm).symm)
  have h1 := median_eq_of_sorted h hperm hsorted
  have h2 := median_eq_of_sorted hne' (List.Perm.refl _) hsorted
  rw [h2, h1]

/-- C2: round-trip of the rectangle solver: for any L, W > 0, feeding
P = 2(L+W) and A = L·W into the solver returns the pair {L, W} exactly,
the larger as length and the smaller as width — in particular within the
1e-6 floating tolerance. -/
theorem solveRectDims_roundtrip (L W : ℝ) (hL : 0 < L) (hW : 0 < W) :
    solveRectDimsFromPerimeterArea (2 * (L + W)) (L * W) = (max L W, min L W) ∧
    |(solveRectDimsFromPerimeterArea (2 * (L + W)) (L * W)).1 - max L W| ≤ 1e-6 ∧
    |(solveRectDimsFromPerimeterArea (2 * (L + W)) (L * W)).2 - min L W| ≤ 1e-6 := by
  have heq : solveRectDimsFromPerimeterArea (2 * (L + W)) (L * W)
      = (max L W, min L W) := by
    have hPA : ¬ (2 * (L + W) ≤ 0 ∨ L * W ≤ 0) := by
      push_neg
      exact ⟨by nlinarith, mul_pos hL hW⟩
    unfold solveRectDimsFromPerimeterArea
    rw [if_neg hPA]
    dsimp only
    have hD : 2 * (L + W) / 2 * (2 * (L + W) / 2) - 4 * (L * W) = (L - W) ^ 2 := by
      ring
    rw [hD]
    have hDnn : (0 : ℝ) ≤ (L - W) ^ 2 := sq_nonneg _
    rw [if_neg (not_lt.mpr (by
      linarith [sq_nonneg (L - W), show (0 : ℝ) < 1e-9 by norm_num] :
      -(1e-9 : ℝ) ≤ (L - W) ^ 2))]
    rw [if_neg (not_lt.mpr hDnn)]
    rw [Real.sqrt_sq_eq_abs]
    have hmax : 0.5 * (2 * (L + W) / 2 + |L - W|) = max L W := by
      rcases le_total L W with h | h
      · rw [abs_of_nonpos (by linarith), max_eq_right h]; ring
      · rw [abs_of_nonneg (by linarith), max_eq_left h]; ring
    have hmin : 0.5 * (2 * (L + W) / 2 - |L - W|) = min L W := by
      rcases le_total L W with h | h
      · rw [abs_of_nonpos (by linarith), min_eq_left h]; ring
      · rw [abs_of_nonneg (by linarith), min_eq_right h]; ring
    rw [hmax, hmin]
    rw [if_neg (by
      push_neg
      exact ⟨lt_max_iff.mpr (Or.inl hL), lt_min hL hW⟩ :
      ¬ (max L W ≤ 0 ∨ min L W ≤ 0))]
    rw [if_pos (min_le_max : max L W ≥ min L W)]
  refine ⟨heq, ?_, ?_⟩ <;> rw [heq] <;> norm_num

/-- Witness for C2 at the concrete rectangle L = 2, W = 1. -/
theorem solveRectDims_roundtrip_witness :
    (0 : ℝ) < 2 ∧ (0 : ℝ) < 1 ∧
    solveRectDimsFromPerimeterArea (2 * ((2 : ℝ) + 1)) (2 * 1)
      = (max 2 1, min 2 1) :=
  ⟨by norm_num, by norm_num,
    (solveRectDims_roundtrip 2 1 (by norm_num) (by norm_num)).1⟩

/-- Counterexample to C3: an arc whose centre (50,50) lies outside every
zone but whose bounding-box centroid (5,5) lies inside zone Z is resolved
to the empty (unassigned) zone by `ResolveZoneForEntity`, not to Z: the
claimed bounding-box-centroid retry does not happen for arcs. -/
theorem resolveZoneForEntity_arc_no_retry_cx :
    resolveZoneForEntity (.arc ⟨50, 50⟩ (some (⟨0, 0⟩, ⟨10, 10⟩)))
      [⟨"Z", [⟨0, 0⟩, ⟨10, 0⟩, ⟨10, 10⟩, ⟨0, 10⟩]⟩] = "" ∧
    zoneForPoint ⟨50, 50⟩ [⟨"Z", [⟨0, 0⟩, ⟨10, 0⟩, ⟨10, 10⟩, ⟨0, 10⟩]⟩] = "" ∧
    zoneForPoint ⟨(0 + 10) * 0.5, (0 + 10) * 0.5⟩
      [⟨"Z", [⟨0, 0⟩, ⟨10, 0⟩, ⟨10, 10⟩, ⟨0, 10⟩]⟩] = "Z" := by
  have hz : zoneForPoint ⟨50, 50⟩
      [⟨"Z", [⟨0, 0⟩, ⟨10, 0⟩, ⟨10, 10⟩, ⟨0, 10⟩]⟩] = "" := by
    norm_num [zoneForPoint, pointInPolygon, List.range_succ]
  refine ⟨?_, hz, ?_⟩
  · simp [resolveZoneForEntity, hz]
  · norm_num [zoneForPoint, pointInPolygon, List.range_succ]

/-- C3 amended: the primary-point-then-bounding-box-centroid fallback
applies to block references (insertion point first, then the extents
centre); a line, circle or arc entity in the headless resolver is tested
only at its single representative point (line midpoint, circle/arc
centre), with no bounding-box retry. -/
theorem zone_resolution_fallback (br : BlockRefEnt) (zones : List PlannerZone)
    (mn mx : Point2d) (hext : br.ext = some (mn, mx))
    (hmiss : isNullOrWhiteSpace (zoneForPoint br.position zones) = true)
    (hhit : isNullOrWhiteSpace
      (zoneForPoint ⟨(mn.x + mx.x) * 0.5, (mn.y + mx.y) * 0.5⟩ zones) = false) :
    resolveZoneForBlockRef br zones =
      zoneForPoint ⟨(mn.x + mx.x) * 0.5, (mn.y + mx.y) * 0.5⟩ zones ∧
    ∀ (c sp ep : Point2d) (e1 e2 e3 : Option (Point2d × Point2d)),
      resolveZoneForEntity (.arc c e1) zones = zoneForPoint c zones ∧
      resolveZoneForEntity (.circle c e2) zones = zoneForPoint c zones ∧
      resolveZoneForEntity (.line sp ep e3) zones =
        zoneForPoint ⟨(sp.x + ep.x) * 0.5, (sp.y + ep.y) * 0.5⟩ zones := by
  have hzn : zones ≠ [] := by
    intro h0
    subst h0
    simp [zoneForPoint, isNullOrWhiteSpace] at hhit
  have hne : zones.isEmpty = false := by
    cases zones with
    | nil => exact absurd rfl hzn
    | cons z rest => rfl
  constructor
  · simp [resolveZoneForBlockRef, hext, hne, hmiss, hhit]
  · intro c sp ep e1 e2 e3
    refine ⟨?_, ?_, ?_⟩ <;> simp [resolveZoneForEntity, hne]

/-- Witness for the amended C3 at a concrete block reference whose
insertion point misses all zones and whose extents centre hits zone Z. -/
theorem zone_resolution_fallback_witness :
    isNullOrWhiteSpace (zoneForPoint ⟨50, 50⟩
      [⟨"Z", [⟨0, 0⟩, ⟨10, 0⟩, ⟨10, 10⟩, ⟨0, 10⟩]⟩]) = true ∧
    isNullOrWhiteSpace (zoneForPoint ⟨(0 + 10) * 0.5, (0 + 10) * 0.5⟩
      [⟨"Z", [⟨0, 0⟩, ⟨10, 0⟩, ⟨10, 10⟩, ⟨0, 10⟩]⟩]) = false ∧
    resolveZoneForBlockRef
      { position := ⟨50, 50⟩, ext := some (⟨0, 0⟩, ⟨10, 10⟩) }
      [⟨"Z", [⟨0, 0⟩, ⟨10, 0⟩, ⟨10, 10⟩, ⟨0, 10⟩]⟩] =
      zoneForPoint ⟨(0 + 10) * 0.5, (0 + 10) * 0.5⟩
        [⟨"Z", [⟨0, 0⟩, ⟨10, 0⟩, ⟨10, 10⟩, ⟨0, 10⟩]⟩] := by
  have h1 : zoneForPoint ⟨50, 50⟩
      [⟨"Z", [⟨0, 0⟩, ⟨10, 0⟩, ⟨10, 10⟩, ⟨0, 10⟩]⟩] = "" := by
    norm_num [zoneForPoint, pointInPolygon, List.range_succ]
  have h2 : zoneForPoint ⟨(0 + 10) * 0.5, (0 + 10) * 0.5⟩
      [⟨"Z", [⟨0, 0⟩, ⟨10, 0⟩, ⟨10, 10⟩, ⟨0, 10⟩]⟩] = "Z" := by
    norm_num [zoneForPoint, pointInPolygon, List.range_succ]
  have hmiss : isNullOrWhiteSpace (zoneForPoint ⟨50, 50⟩
      [⟨"Z", [⟨0, 0⟩, ⟨10, 0⟩, ⟨10, 10⟩, ⟨0, 10⟩]⟩]) = true := by
    rw [h1]; decide
  have hhit : isNullOrWhiteSpace (zoneForPoint ⟨(0 + 10) * 0.5, (0 + 10) * 0.5⟩
      [⟨"Z", [⟨0, 0⟩, ⟨10, 0⟩, ⟨10, 10⟩, ⟨0, 10⟩]⟩]) = false := by
    rw [h2]; decide
  exact ⟨hmiss, hhit,
    (zone_resolution_fallback
      { position := ⟨50, 50⟩, ext := some (⟨0, 0⟩, ⟨10, 10⟩) }
      [⟨"Z", [⟨0, 0⟩, ⟨10, 0⟩, ⟨10, 10⟩, ⟨0, 10⟩]⟩]
      ⟨0, 0⟩ ⟨10, 10⟩ rfl hmiss hhit).1⟩

/-- Counterexample to C4: in the bucket [a, a, 5] fewer than half of the
values parse as numbers (1 of 3), so the claimed rule reduces it
categorically to the mode "a"; the code nevertheless reduces it
numerically (its threshold is `max 1 ⌊n/2⌋`, not ⌈n/2⌉) and produces
"K=5", not "K=a". -/
theorem configString_half_threshold_cx :
    2 * (([⟨"a", none⟩, ⟨"a", none⟩, ⟨"5", some 5⟩] : List CfgVal).filterMap
        CfgVal.tryParse).length <
      ([⟨"a", none⟩, ⟨"a", none⟩, ⟨"5", some 5⟩] : List CfgVal).length ∧
    modeOf [⟨"a", none⟩, ⟨"a", none⟩, ⟨"5", some 5⟩] = "a" ∧
    reduceBucket [⟨"a", none⟩, ⟨"a", none⟩, ⟨"5", some 5⟩] = "5" ∧
    reduceBucketSpec [⟨"a", none⟩, ⟨"a", none⟩, ⟨"5", some 5⟩] = "a" ∧
    buildConfigStringFromBuckets
      [("K", [⟨"a", none⟩, ⟨"a", none⟩, ⟨"5", some 5⟩])] = "K=5" :=
  ⟨by decide, by decide, by decide, by decide, by decide⟩

/-- C4 amended: the group's config string joins one `name=value` pair per
bucket, with the names sorted case-insensitively and the pairs separated
by "; "; each bucket's value reduces numerically to the median of its
parsed numbers (formatted as a plain decimal) when the count of numeric
values is at least `max 1 ⌊n/2⌋` for bucket size n, and otherwise
categorically to the most frequent value with ties broken by
case-insensitive lexical order. -/
theorem configString_bucket_reduction (buckets : List (String × List CfgVal))
    (hws : ∀ kv ∈ buckets, isNullOrWhiteSpace kv.1 = false)
    (hne : ∀ kv ∈ buckets, kv.2 ≠ [])
    (hred : ∀ kv ∈ buckets, isNullOrWhiteSpace (reduceBucket kv.2) = false)
    (hnb : buckets ≠ []) :
    buildConfigStringFromBuckets buckets =
      joinSep "; "
        ((sortByBool strLeCI (buckets.map Prod.fst)).map
          fun k => k ++ "=" ++ reduceBucket ((lookupCI buckets k).getD [])) ∧
    ∀ (vals : List CfgVal) (s : List ℚ),
      s.Perm (vals.filterMap CfgVal.tryParse) → s.Pairwise (· ≤ ·) →
      (max 1 (vals.length / 2) ≤ s.length →
        reduceBucket vals = formatDec 4
          (if s.length % 2 = 1 then s.getD (s.length / 2) 0
           else 0.5 * (s.getD (s.length / 2 - 1) 0 + s.getD (s.length / 2) 0))) ∧
      (s.length < max 1 (vals.length / 2) →
        reduceBucket vals = modeOf vals ∧
        ∀ g ∈ groupCI vals, ∃ cnt, (modeOf vals, cnt) ∈ groupCI vals ∧
          g.2 ≤ cnt ∧ (g.2 = cnt → strLeCI (modeOf vals) g.1 = true)) := by
  constructor
  · have hnbe : buckets.isEmpty = false := by
      cases buckets with
      | nil => exact absurd rfl hnb
      | cons b bs => rfl
    unfold buildConfigStringFromBuckets
    rw [if_neg (by rw [hnbe]; simp)]
    dsimp only
    rw [List.filter_eq_self.mpr (by
      intro k hk
      obtain ⟨kv, hkv, hfst⟩ := List.mem_map.mp hk
      rw [← hfst, hws kv hkv]
      rfl)]
    rw [foldl_filterMap_eq (partOf buckets) _ [], List.nil_append]
    congr 1
    apply filterMap_eq_map_of_some
    intro k hk
    have hk2 : k ∈ buckets.map Prod.fst := (sortByBool_perm _ _).mem_iff.mp hk
    obtain ⟨q, hq, hlook⟩ := lookupCI_mem_key hk2
    have hqne : q.2.isEmpty = false := by
      cases hv : q.2 with
      | nil => exact absurd hv (hne q hq)
      | cons a l => rfl
    unfold partOf
    rw [hlook]
    dsimp only
    rw [if_neg (by rw [hqne]; simp)]
    rw [if_pos (by rw [hred q hq]; rfl)]
    rfl
  · intro vals s hp hs
    constructor
    · intro hth
      exact reduceBucket_numeric hp hs hth
    · intro hlt
      refine ⟨reduceBucket_mode hp hlt, ?_⟩
      intro g hgmem
      obtain ⟨cnt, hc1, hc2⟩ := modeOf_spec (List.ne_nil_of_mem hgmem)
      exact ⟨cnt, hc1, hc2 g hgmem⟩

/-- Witness for the amended C4 at two buckets given in unsorted key order:
the output sorts A before K and separates the pairs with "; ", the K
bucket reducing to the numeric median 3 and the A bucket to its mode x. -/
theorem configString_bucket_reduction_witness :
    (∀ kv ∈ ([("K", [⟨"2", some 2⟩, ⟨"3", some 3⟩, ⟨"4", some 4⟩]),
        ("A", [⟨"x", none⟩, ⟨"x", none⟩, ⟨"y", none⟩])] :
          List (String × List CfgVal)),
      isNullOrWhiteSpace kv.1 = false) ∧
    (∀ kv ∈ ([("K", [⟨"2", some 2⟩, ⟨"3", some 3⟩, ⟨"4", some 4⟩]),
        ("A", [⟨"x", none⟩, ⟨"x", none⟩, ⟨"y", none⟩])] :
          List (String × List CfgVal)),
      kv.2 ≠ []) ∧
    (∀ kv ∈ ([("K", [⟨"2", some 2⟩, ⟨"3", some 3⟩, ⟨"4", some 4⟩]),
        ("A", [⟨"x", none⟩, ⟨"x", none⟩, ⟨"y", none⟩])] :
          List (String × List CfgVal)),
      isNullOrWhiteSpace (reduceBucket kv.2) = false) ∧
    buildConfigStringFromBuckets
      [("K", [⟨"2", some 2⟩, ⟨"3", some 3⟩, ⟨"4", some 4⟩]),
       ("A", [⟨"x", none⟩, ⟨"x", none⟩, ⟨"y", none⟩])] = "A=x; K=3" ∧
    ([2, 3, 4] : List ℚ).Perm
      (([⟨"2", some 2⟩, ⟨"3", some 3⟩, ⟨"4", some 4⟩] : List CfgVal).filterMap
        CfgVal.tryParse) ∧
    ([2, 3, 4] : List ℚ).Pairwise (· ≤ ·) ∧
    reduceBucket [⟨"2", some 2⟩, ⟨"3", some 3⟩, ⟨"4", some 4⟩] = "3" := by
  have h := configString_bucket_reduction
    [("K", [⟨"2", some 2⟩, ⟨"3", some 3⟩, ⟨"4", some 4⟩]),
     ("A", [⟨"x", none⟩, ⟨"x", none⟩, ⟨"y", none⟩])]
    (by decide) (by decide) (by decide) (by decide)
  refine ⟨by decide, by decide, by decide, ?_, by decide, by decide, ?_⟩
  · rw [h.1]
    decide
  · have h2 := (h.2 [⟨"2", some 2⟩, ⟨"3", some 3⟩, ⟨"4", some 4⟩] [2, 3, 4]
      (by decide) (by decide)).1 (by decide)
    rw [h2]
    have h3 : (if ([2, 3, 4] : List ℚ).length % 2 = 1 then
          ([2, 3, 4] : List ℚ).getD (([2, 3, 4] : List ℚ).length / 2) 0
        else 0.5 * (([2, 3, 4] : List ℚ).getD (([2, 3, 4] : List ℚ).length / 2 - 1) 0 +
          ([2, 3, 4] : List ℚ).getD (([2, 3, 4] : List ℚ).length / 2) 0)) = 3 := by
      norm_num
    rw [h3]
    decide

/-- Witness for C10 at the concrete input [3,1,2]. -/
theorem median_sorts_in_place_witness :
    ([3, 1, 2] : List ℚ) ≠ [] ∧
    ((medianSt [3, 1, 2]).2.Perm [3, 1, 2] ∧
     (medianSt [3, 1, 2]).2.Pairwise (· ≤ ·) ∧
     median ((medianSt [3, 1, 2]).2) = median [3, 1, 2]) :=
  ⟨by decide, median_sorts_in_place [3, 1, 2] (by decide)⟩

/-- C9: every emitted sheet record has a strictly positive quantity: zone
rows are only emitted for positive zone counts, and the sentinel row
carries the group's total count, which is at least 1 because a group is
created only when its first entity is seen. -/
theorem sheet_rows_qty_pos (zones : List PlannerZone) (ents : List BlockRefEnt) :
    (∀ p ∈ aggregateAll zones ents, 1 ≤ p.2.totalCount) ∧
    ∀ r ∈ visJsonSheetRows zones ents, 0 < r.qtyValue := by
  refine ⟨aggregate_totalCount_pos zones ents, ?_⟩
  intro r hr
  unfold visJsonSheetRows buildSheetLikeRows at hr
  have hr2 := (sortByBool_perm sheetRowLe _).mem_iff.mp hr
  rw [foldl_append_eq rowsOfAgg _ [], List.nil_append] at hr2
  obtain ⟨rows, hrows, hrmem⟩ := List.mem_flatten.mp hr2
  obtain ⟨it, hit, rfl⟩ := List.mem_map.mp hrows
  obtain ⟨p, hpmem, rfl⟩ := List.mem_map.mp hit
  rcases mem_rowsOfAgg hrmem with ⟨kv, hkvmem, hzone, hq, hws, hpos, hboq⟩ | ⟨hz, hrow⟩
  · rw [hq]
    exact hpos
  · rw [hrow]
    show 0 < p.2.totalCount
    have h1 := aggregate_totalCount_pos zones ents p hpmem
    omega

/-- Witness for C9 on the example drawing: the aggregated group and the
emitted row both satisfy the positivity conclusions. -/
theorem sheet_rows_qty_pos_witness :
    (("Table-Round",
        ({ blockName := "Table-Round", totalCount := 4, dynamicCount := 0,
           categoryLike := "PLANNER", zoneCounts := [("Conference", 3)] } : AllAgg)) ∈
          aggregateAll confZones tableEnts ∧
      (1 : Int) ≤ 4) ∧
    (({ product := "Loose Furniture", boqName := "Table-Round",
        zone := "Conference", config := "", qtyValue := 3 } : SheetRow) ∈
          visJsonSheetRows confZones tableEnts ∧
      (0 : Int) < 3) := by
  constructor
  · have hmem : ("Table-Round",
        ({ blockName := "Table-Round", totalCount := 4, dynamicCount := 0,
           categoryLike := "PLANNER", zoneCounts := [("Conference", 3)] } : AllAgg)) ∈
          aggregateAll confZones tableEnts := by
      rw [aggregateAll_example_eval]
      exact List.mem_singleton_self _
    exact ⟨hmem, (sheet_rows_qty_pos confZones tableEnts).1 _ hmem⟩
  · have hmem : ({ product := "Loose Furniture", boqName := "Table-Round",
                   zone := "Conference", config := "", qtyValue := 3 } : SheetRow) ∈
          visJsonSheetRows confZones tableEnts := by
      rw [visJson_example_eval]
      exact List.mem_singleton_self _
    exact ⟨hmem, (sheet_rows_qty_pos confZones tableEnts).2 _ hmem⟩

/-- Counterexample to C1: for three placements of one block type inside
the Conference zone and a fourth of the same type outside every zone
(total count 4), the emitter produces exactly ONE record, the Conference
row with quantity 3 — no sentinel record for the out-of-zone placement —
where the claim predicts two records. -/
theorem sheet_rows_example_cx :
    (visJsonSheetRows confZones tableEnts).length = 1 ∧
    visJsonSheetRows confZones tableEnts =
      [{ product := "Loose Furniture", boqName := "Table-Round",
         zone := "Conference", config := "", qtyValue := 3 }] ∧
    (aggregateAll confZones tableEnts).map (fun p => p.2.totalCount) = [4] := by
  refine ⟨?_, visJson_example_eval, ?_⟩
  · rw [visJson_example_eval]
    rfl
  · rw [aggregateAll_example_eval]
    rfl

/-- C1 amended: for a finalized aggregate group among the emitted items
(group names pairwise case-insensitively distinct, its zone keys
distinct): if the group observed at least one zone, the emitter produces
exactly one record per observed (group, zone) pair with non-blank zone
and positive count, carrying that zone's count, and every record of the
group corresponds to such a pair — so entities of the group that fell
outside every zone are not represented by any record (no sentinel row);
only a group that observed no zone at all gets exactly one record, the
sentinel "Unmarked Area" row carrying its total count. -/
theorem buildSheetLikeRows_per_group (items : List AllAgg) (it : AllAgg)
    (hnames : items.Pairwise fun a b => strEqCI a.blockName b.blockName = false)
    (hit : it ∈ items)
    (hzkeys : it.zoneCounts.Pairwise fun p q => p.1 ≠ q.1) :
    (∀ z q, (z, q) ∈ it.zoneCounts → isNullOrWhiteSpace z = false → 0 < q →
      ((buildSheetLikeRows items).countP
        fun r => r.boqName == it.blockName && r.zone == z) = 1) ∧
    (∀ r ∈ buildSheetLikeRows items, r.boqName = it.blockName →
      (it.zoneCounts ≠ [] →
        ∃ kv ∈ it.zoneCounts, r.zone = kv.1 ∧ r.qtyValue = kv.2 ∧ 0 < kv.2) ∧
      (it.zoneCounts = [] →
        r.zone = "Unmarked Area" ∧ r.qtyValue = it.totalCount)) ∧
    (it.zoneCounts = [] →
      ((buildSheetLikeRows items).countP fun r => r.boqName == it.blockName) = 1) := by
  have hflat : ∀ (p : SheetRow → Bool),
      (buildSheetLikeRows items).countP p
        = ((items.map rowsOfAgg).flatten).countP p := by
    intro p
    unfold buildSheetLikeRows
    rw [foldl_append_eq rowsOfAgg items [], List.nil_append]
    exact (sortByBool_perm _ _).countP_eq p
  refine ⟨?_, ?_, ?_⟩
  · intro z q hzq hws hq
    rw [hflat, countP_flatten, List.map_map]
    have hnz : it.zoneCounts ≠ [] := List.ne_nil_of_mem hzq
    exact sum_countP_unique (fun r => r.boqName == it.blockName && r.zone == z) it
      (fun r hpr => by
        simp only [Bool.and_eq_true, beq_iff_eq] at hpr
        exact hpr.1)
      (by
        rw [rowsOfAgg_zoned hnz]
        exact countP_filterMap_zone_one it it.zoneCounts hzkeys hzq hws hq)
      items hnames hit
  · intro r hr hboq
    have hr2 : r ∈ (items.map rowsOfAgg).flatten := by
      unfold buildSheetLikeRows at hr
      rw [foldl_append_eq rowsOfAgg items [], List.nil_append] at hr
      exact (sortByBool_perm _ _).mem_iff.mp hr
    obtain ⟨rows, hrows, hrmem⟩ := List.mem_flatten.mp hr2
    obtain ⟨it', hit', rfl⟩ := List.mem_map.mp hrows
    have hsame : it' = it := by
      by_contra hneq
      have hsymm : Symmetric (fun a b : AllAgg =>
          strEqCI a.blockName b.blockName = false) := by
        intro x y hxy
        rw [strEqCI_comm]
        exact hxy
      have hR := hnames.forall hsymm hit' hit hneq
      exact strEqCI_false_ne hR
        (by rw [← boqName_of_mem_rowsOfAgg hrmem, hboq])
    subst hsame
    constructor
    · intro hnz
      rcases mem_rowsOfAgg hrmem with ⟨kv, hkv, hzone, hqv, hws, hpos, _⟩ | ⟨hz0, _⟩
      · exact ⟨kv, hkv, hzone, hqv, hpos⟩
      · exact absurd hz0 hnz
    · intro hz
      rcases mem_rowsOfAgg hrmem with ⟨kv, hkv, _⟩ | ⟨_, hrow⟩
      · rw [hz] at hkv
        cases hkv
      · rw [hrow]
        exact ⟨rfl, rfl⟩
  · intro hz
    rw [hflat, countP_flatten, List.map_map]
    exact sum_countP_unique (fun r => r.boqName == it.blockName) it
      (fun r hpr => by simpa using hpr)
      (countP_sentinel_one hz)
      items hnames hit

/-- Witness for the amended C1 at the worked example group: the single
Conference record with quantity 3 is counted exactly once. -/
theorem buildSheetLikeRows_per_group_witness :
    (("Conference", (3 : Int)) ∈ itExample.zoneCounts ∧
      isNullOrWhiteSpace "Conference" = false ∧ (0 : Int) < 3) ∧
    ((buildSheetLikeRows [itExample]).countP
      fun r => r.boqName == itExample.blockName && r.zone == "Conference") = 1 := by
  refine ⟨⟨by decide, by decide, by decide⟩, ?_⟩
  exact (buildSheetLikeRows_per_group [itExample] itExample
    (by decide) (by decide) (by decide)).1 "Conference" 3
    (by decide) (by decide) (by decide)

end DwgExtract
